import Mathlib

/-!
Shallow embedding of `src/strava2garminconnect/image.py` (the image-comparison
engine).  Images are modelled as pure data: a size, a color mode and a pixel
function; an 8-bit channel value is a `Nat` (well-formedness `≤ 255` is stated
where a claim needs it).  Python exceptions become an explicit error type and
every fallible function returns `Except Err _`.  Python's float arithmetic is
modelled by exact rationals (`ℚ`); the claims settled here are about the exact
formulas, not floating-point rounding.  The embedding is pure, so "does not
mutate its inputs" holds by construction.
-/

/-- Color modes that occur in the engine: Pillow's "L" (single-channel
luminance) and "RGB".  The code only ever compares modes for equality and
turns them into strings for error messages. -/
inductive Mode
  | L
  | RGB
deriving DecidableEq, Repr

/-- The string Pillow uses for a mode (what `str(image.mode)` yields). -/
def Mode.str : Mode → String
  | .L => "L"
  | .RGB => "RGB"

/-- A pixel: three 8-bit channels.  Mode "L" images use only the first
channel; the other two are ignored by every operation on an L image. -/
abbrev RGBPix := Nat × Nat × Nat

/-- A decoded raster image: `size = (width, height)`, a mode, and the pixel
at each coordinate.  Only coordinates with `x < width` and `y < height` are
meaningful. -/
structure Image where
  size : Nat × Nat
  mode : Mode
  px : Nat → Nat → RGBPix

/-- A single-channel (mode "L") image, as produced by
`pixel_diff` (`ImageChops.difference(...).convert('L')`). -/
structure GrayImage where
  size : Nat × Nat
  px : Nat → Nat → Nat

/-- All in-range pixels of `g` are valid 8-bit values. -/
def GrayImage.WF (g : GrayImage) : Prop :=
  ∀ x y, x < g.size.1 → y < g.size.2 → g.px x y ≤ 255

/-- All in-range pixels have valid 8-bit channel values (only the channels
the image's mode actually uses). -/
def Image.WF (a : Image) : Prop :=
  ∀ x y, x < a.size.1 → y < a.size.2 →
    (a.px x y).1 ≤ 255 ∧
    (a.mode = .RGB → (a.px x y).2.1 ≤ 255 ∧ (a.px x y).2.2 ≤ 255)

/-- Failure outcomes of the engine.
`imageCompare` is the code's `ImageCompareException` (carrying the message);
`zeroDivision` is Python's `ZeroDivisionError`, raised by
`input_diff / float(worst)` when `worst == 0`.
`decode` is the exception `Image.open` raises when an identifier cannot be
decoded into a valid image (the spec's `DecodeError`; Pillow raises it and
image.py propagates it), carrying the failing identifier.
`degenerate` is modelled from the spec: the dedicated `DegenerateImageError`
that §7 of the design document calls for on zero-area images.  The code never
raises it; it exists here only so claims about it can be stated. -/
inductive Err
  | imageCompare (msg : String)
  | zeroDivision
  | decode (p : String)
  | degenerate
deriving DecidableEq, Repr

/-- The exact message built at image.py:59-61 for a size mismatch.
`toString (w, h)` renders as `(w, h)`, matching Python's `str((w, h))`. -/
def sizeMsg (sa sb : Nat × Nat) : String :=
  "Different image sizes, can only compare same size images: A=" ++
    toString sa ++ " B=" ++ toString sb

/-- The exact message built at image.py:64-66 for a mode mismatch. -/
def modeMsg (ma mb : Mode) : String :=
  "Different image mode, can only compare same mode images: A=" ++
    ma.str ++ " B=" ++ mb.str

/-- Pillow's RGB → L conversion (libImaging `convert.c`):
`L = (R*19595 + G*38470 + B*7471) >> 16` (the ITU-R 601-2 weights scaled to
a 16-bit fixed point; the three weights sum to exactly 65536). -/
def lum (r g b : Nat) : Nat :=
  (r * 19595 + g * 38470 + b * 7471) / 65536

/-- One pixel of `ImageChops.difference(a, b).convert('L')`:
per-channel absolute difference, then (for RGB) luminance conversion.
For mode L the convert step is the identity on the single channel. -/
def lumDiff (m : Mode) (p q : RGBPix) : Nat :=
  match m with
  | .L => Nat.dist p.1 q.1
  | .RGB => lum (Nat.dist p.1 q.1) (Nat.dist p.2.1 q.2.1) (Nat.dist p.2.2 q.2.2)

/-- The difference image computed by the success path of `pixel_diff`
(image.py:68-71): same size as `a`, each pixel the luminance of the
per-channel absolute difference. -/
def diffGray (a b : Image) : GrayImage :=
  { size := a.size, px := fun x y => lumDiff a.mode (a.px x y) (b.px x y) }

/-- `pixel_diff` (image.py:49-71): rejects mismatched sizes, then mismatched
modes, with `ImageCompareException`; otherwise returns the black/white
difference image. -/
def pixel_diff (a b : Image) : Except Err GrayImage :=
  if a.size ≠ b.size then
    .error (.imageCompare (sizeMsg a.size b.size))
  else if a.mode ≠ b.mode then
    .error (.imageCompare (modeMsg a.mode b.mode))
  else
    .ok (diffGray a b)

/-- Number of in-range pixels of `g` whose value is exactly `i` (one bucket
of Pillow's `histogram()` for an L image). -/
def countAt (g : GrayImage) (i : Nat) : Nat :=
  ((Finset.range g.size.1 ×ˢ Finset.range g.size.2).filter
    (fun p => g.px p.1 p.2 = i)).card

/-- Pillow's `histogram()` for an L-mode image: 256 buckets, bucket `i`
holding the number of pixels with value `i`. -/
def histogram (g : GrayImage) : List Nat :=
  (List.range 256).map (countAt g)

/-- `total_histogram_diff` (image.py:74-82):
`sum(i * n for i, n in enumerate(pixel_diff.histogram()))`. -/
def total_histogram_diff (g : GrayImage) : Nat :=
  ((histogram g).enum.map (fun p => p.1 * p.2)).sum

/-- `image_diff` (image.py:85-95): the histogram-weighted score of the
pixel difference; propagates `pixel_diff`'s exception. -/
def image_diff (a b : Image) : Except Err Nat :=
  match pixel_diff a b with
  | .error e => .error e
  | .ok g => .ok (total_histogram_diff g)

/-- `Image.new('RGB', size, color)` (image.py:151-152): a constant RGB
image. -/
def newRGB (sz : Nat × Nat) (c : RGBPix) : Image :=
  { size := sz, mode := .RGB, px := fun _ _ => c }

/-- `image_diff_percent` (image.py:144-163), on already-decoded images
(the try-block body; path handling and the finally-block are modelled
separately for the resource claims).  Python raises `ZeroDivisionError`
from `input_diff / float(worst)` exactly when `worst == 0`; otherwise
the division is modelled exactly in `ℚ`. -/
def image_diff_percent (a b : Image) : Except Err ℚ :=
  match image_diff a b with
  | .error e => .error e
  | .ok d =>
    let black_reference_image := newRGB a.size (0, 0, 0)
    let white_reference_image := newRGB a.size (255, 255, 255)
    match image_diff black_reference_image white_reference_image with
    | .error e => .error e
    | .ok w =>
      if w = 0 then .error .zeroDivision
      else .ok ((d : ℚ) / (w : ℚ) * 100)

/-- `is_equal` (image.py:104-118): size mismatch short-circuits to `False`;
otherwise the percentage (with any exception it raises propagating) is
compared against the tolerance, inclusively. -/
def is_equal (a b : Image) (tol : ℚ) : Except Err Bool :=
  if a.size ≠ b.size then
    .ok false
  else
    (image_diff_percent a b).map (fun p => decide (p ≤ tol))

/-- An argument to `image_diff_percent` as the code accepts it: either an
already-decoded image (caller-owned) or a path string (engine decodes). -/
inductive ImgSrc
  | inst (img : Image)
  | path (p : String)

/-- Which images the call opened itself and which it closed (the
`close_a` / `close_b` flags and the `finally` block of
image.py:134-161). -/
structure OpenClose where
  openedA : Bool
  closedA : Bool
  openedB : Bool
  closedB : Bool
deriving DecidableEq, Repr

/-- One `isinstance(image_x, str)` block of image.py:136-142: an instance
argument is passed through (`close_x` stays `False`); a path argument is
decoded through the partial environment `env`, yielding the image with
`close_x = True` on success and the propagating `Image.open` exception
(carrying the failing identifier) on decode failure. -/
def openSrc (env : String → Option Image) : ImgSrc → Except String (Image × Bool)
  | .inst i => .ok (i, false)
  | .path p =>
    match env p with
    | none => .error p
    | some i => .ok (i, true)

/-- `image_diff_percent` with the code's path handling (image.py:134-161).
Decoding is fallible (`env` returns `none` when `Image.open` would raise).
The two `isinstance` blocks run sequentially *before* the `try` block:
if the first argument's open fails, nothing was opened; if the second
argument's open fails after the first path argument was opened, the
exception escapes before the `try`, the `finally` never runs, and the
first self-opened image is left unclosed.  Only once both arguments are
resolved does the try/finally run, and the `finally` then closes exactly
the flagged images on every exit path (the embedded try-body is total, so
its effect is recorded unconditionally, for the error outcomes as well). -/
def image_diff_percent_src (env : String → Option Image) (sa sb : ImgSrc) :
    Except Err ℚ × OpenClose :=
  match openSrc env sa with
  | .error pa =>
    (.error (.decode pa),
      { openedA := false, closedA := false, openedB := false, closedB := false })
  | .ok (ia, close_a) =>
    match openSrc env sb with
    | .error pb =>
      (.error (.decode pb),
        { openedA := close_a, closedA := false,
          openedB := false, closedB := false })
    | .ok (ib, close_b) =>
      (image_diff_percent ia ib,
        { openedA := close_a, closedA := close_a,
          openedB := close_b, closedB := close_b })

/-- `is_equal_bytes` (image.py:98-102): decodes both byte buffers (via the
decode environment `envB`) and delegates to `is_equal`.  The code contains
no `close()` call and no context manager, so neither decoded image is ever
closed: the open/close log records two opens and no closes. -/
def is_equal_bytes_eff (envB : List Nat → Image) (ba bb : List Nat)
    (tol : ℚ) : Except Err Bool × OpenClose :=
  let image_a := envB ba
  let image_b := envB bb
  (is_equal image_a image_b tol,
    { openedA := true, closedA := false,
      openedB := true, closedB := false })

/-! ### Helper lemmas about the embedding -/

lemma pixel_diff_size_err (a b : Image) (hs : a.size ≠ b.size) :
    pixel_diff a b = .error (.imageCompare (sizeMsg a.size b.size)) := by
  simp [pixel_diff, hs]

lemma pixel_diff_mode_err (a b : Image) (hs : a.size = b.size)
    (hm : a.mode ≠ b.mode) :
    pixel_diff a b = .error (.imageCompare (modeMsg a.mode b.mode)) := by
  simp [pixel_diff, hs, hm]

lemma pixel_diff_ok (a b : Image) (hs : a.size = b.size) (hm : a.mode = b.mode) :
    pixel_diff a b = .ok (diffGray a b) := by
  simp [pixel_diff, hs, hm]

lemma image_diff_ok (a b : Image) (hs : a.size = b.size) (hm : a.mode = b.mode) :
    image_diff a b = .ok (total_histogram_diff (diffGray a b)) := by
  simp [image_diff, pixel_diff_ok a b hs hm]

lemma zip_self_map {α β : Type} (f : α → β) :
    ∀ l : List α, l.zip (l.map f) = l.map (fun x => (x, f x))
  | [] => rfl
  | x :: xs => by simp [zip_self_map f xs]

lemma enum_range_map {α : Type} (f : Nat → α) (n : Nat) :
    ((List.range n).map f).enum = (List.range n).map (fun i => (i, f i)) := by
  rw [List.enum_eq_zip_range, List.length_map, List.length_range, zip_self_map]

lemma sum_map_list_range (f : Nat → Nat) : ∀ n : Nat,
    ((List.range n).map f).sum = ∑ i ∈ Finset.range n, f i
  | 0 => rfl
  | n + 1 => by
    rw [List.range_succ, List.map_append, List.sum_append,
      Finset.sum_range_succ, sum_map_list_range f n]
    simp

/-- The grid of in-range pixel coordinates of a gray image. -/
def grid (g : GrayImage) : Finset (Nat × Nat) :=
  Finset.range g.size.1 ×ˢ Finset.range g.size.2

lemma total_histogram_diff_eq_sum (g : GrayImage) :
    total_histogram_diff g = ∑ i ∈ Finset.range 256, i * countAt g i := by
  unfold total_histogram_diff histogram
  rw [enum_range_map, List.map_map]
  exact sum_map_list_range _ 256

lemma total_histogram_diff_eq_pixel_sum (g : GrayImage) (hwf : g.WF) :
    total_histogram_diff g = ∑ p ∈ grid g, g.px p.1 p.2 := by
  rw [total_histogram_diff_eq_sum]
  have hmaps : ∀ p ∈ grid g, g.px p.1 p.2 ∈ Finset.range 256 := by
    intro p hp
    rw [grid, Finset.mem_product] at hp
    exact Finset.mem_range.mpr (Nat.lt_succ_of_le
      (hwf p.1 p.2 (Finset.mem_range.mp hp.1) (Finset.mem_range.mp hp.2)))
  rw [← Finset.sum_fiberwise_of_maps_to hmaps (fun p => g.px p.1 p.2)]
  refine Finset.sum_congr rfl (fun i _ => ?_)
  rw [Finset.sum_congr rfl (fun p hp => (Finset.mem_filter.mp hp).2),
    Finset.sum_const, smul_eq_mul, mul_comm]
  rfl

lemma dist_le_255 {x y : Nat} (hx : x ≤ 255) (hy : y ≤ 255) :
    Nat.dist x y ≤ 255 := by
  unfold Nat.dist
  omega

lemma lum_le_255 {r g b : Nat} (hr : r ≤ 255) (hg : g ≤ 255) (hb : b ≤ 255) :
    lum r g b ≤ 255 := by
  unfold lum
  have h : r * 19595 + g * 38470 + b * 7471 ≤ 255 * 65536 := by omega
  calc (r * 19595 + g * 38470 + b * 7471) / 65536
      ≤ 255 * 65536 / 65536 := Nat.div_le_div_right h
    _ = 255 := by norm_num

lemma diffGray_WF (a b : Image) (hs : a.size = b.size) (hm : a.mode = b.mode)
    (hwa : a.WF) (hwb : b.WF) : (diffGray a b).WF := by
  intro x y hx hy
  have hx' : x < a.size.1 := hx
  have hy' : y < a.size.2 := hy
  obtain ⟨h1, h2⟩ := hwa x y hx' hy'
  obtain ⟨k1, k2⟩ := hwb x y (by rw [← hs]; exact hx') (by rw [← hs]; exact hy')
  show lumDiff a.mode (a.px x y) (b.px x y) ≤ 255
  cases hma : a.mode with
  | L =>
    simp only [lumDiff]
    exact dist_le_255 h1 k1
  | RGB =>
    obtain ⟨h2a, h2b⟩ := h2 hma
    obtain ⟨k2a, k2b⟩ := k2 (by rw [← hm]; exact hma)
    simp only [lumDiff]
    exact lum_le_255 (dist_le_255 h1 k1) (dist_le_255 h2a k2a)
      (dist_le_255 h2b k2b)

lemma image_diff_refs (sz : Nat × Nat) :
    image_diff (newRGB sz (0, 0, 0)) (newRGB sz (255, 255, 255)) =
      .ok (255 * (sz.1 * sz.2)) := by
  have hwf : (diffGray (newRGB sz (0, 0, 0)) (newRGB sz (255, 255, 255))).WF := by
    intro x y _ _
    show lumDiff .RGB (0, 0, 0) (255, 255, 255) ≤ 255
    decide
  have hpx : ∀ p : Nat × Nat,
      (diffGray (newRGB sz (0, 0, 0)) (newRGB sz (255, 255, 255))).px p.1 p.2
        = 255 := by
    intro p
    show lumDiff .RGB (0, 0, 0) (255, 255, 255) = 255
    decide
  have hval : total_histogram_diff
      (diffGray (newRGB sz (0, 0, 0)) (newRGB sz (255, 255, 255)))
        = 255 * (sz.1 * sz.2) := by
    rw [total_histogram_diff_eq_pixel_sum _ hwf,
      Finset.sum_congr rfl (fun p _ => hpx p), Finset.sum_const, smul_eq_mul]
    show (Finset.range sz.1 ×ˢ Finset.range sz.2).card * 255 = 255 * (sz.1 * sz.2)
    rw [Finset.card_product, Finset.card_range, Finset.card_range, Nat.mul_comm]
  rw [image_diff_ok (newRGB sz (0, 0, 0)) (newRGB sz (255, 255, 255)) rfl rfl,
    hval]

lemma image_diff_percent_eq (a b : Image) (hs : a.size = b.size)
    (hm : a.mode = b.mode) (harea : a.size.1 * a.size.2 ≠ 0) :
    image_diff_percent a b =
      .ok ((total_histogram_diff (diffGray a b) : ℚ)
        / ((255 * (a.size.1 * a.size.2) : ℕ) : ℚ) * 100) := by
  have hw : (255 : ℕ) * (a.size.1 * a.size.2) ≠ 0 := by
    exact Nat.mul_ne_zero (by norm_num) harea
  simp only [image_diff_percent, image_diff_ok a b hs hm, image_diff_refs,
    hw, if_false, ite_false]

lemma image_diff_percent_zero_area (a b : Image) (hs : a.size = b.size)
    (hm : a.mode = b.mode) (hz : a.size.1 * a.size.2 = 0) :
    image_diff_percent a b = .error .zeroDivision := by
  simp only [image_diff_percent, image_diff_ok a b hs hm, image_diff_refs,
    hz, Nat.mul_zero, if_true, ite_true, reduceIte]

lemma sizeMsg_contains (sa sb : Nat × Nat) :
    (∃ s t, sizeMsg sa sb = s ++ toString sa ++ t) ∧
    (∃ u v, sizeMsg sa sb = u ++ toString sb ++ v) := by
  constructor
  · exact ⟨"Different image sizes, can only compare same size images: A=",
      " B=" ++ toString sb, by simp [sizeMsg, String.append_assoc]⟩
  · exact ⟨"Different image sizes, can only compare same size images: A=" ++
      toString sa ++ " B=", "", by simp [sizeMsg, String.append_assoc]⟩

lemma modeMsg_contains (ma mb : Mode) :
    (∃ s t, modeMsg ma mb = s ++ ma.str ++ t) ∧
    (∃ u v, modeMsg ma mb = u ++ mb.str ++ v) := by
  constructor
  · exact ⟨"Different image mode, can only compare same mode images: A=",
      " B=" ++ mb.str, by simp [modeMsg, String.append_assoc]⟩
  · exact ⟨"Different image mode, can only compare same mode images: A=" ++
      ma.str ++ " B=", "", by simp [modeMsg, String.append_assoc]⟩

lemma lumDiff_comm (m : Mode) (p q : RGBPix) : lumDiff m p q = lumDiff m q p := by
  cases m <;> simp [lumDiff, Nat.dist_comm]

/-! ### Concrete images used by the witnesses -/

/-- A 1×1 mode-L image whose pixel has value 3. -/
def wA : Image := { size := (1, 1), mode := .L, px := fun _ _ => (3, 0, 0) }

/-- A 1×1 mode-L image whose pixel has value 10. -/
def wB : Image := { size := (1, 1), mode := .L, px := fun _ _ => (10, 0, 0) }

/-- A 2×1 mode-L image (size-mismatch partner for the 1×1 images). -/
def w2 : Image := { size := (2, 1), mode := .L, px := fun _ _ => (0, 0, 0) }

/-- A decode environment for the path-handling witnesses: only the
identifier "good" decodes (to `wA`); every other identifier fails as a
missing/undecodable file would. -/
def envLeak : String → Option Image := fun s => if s = "good" then some wA else none

/-- A 1×1 RGB image (mode-mismatch partner for the mode-L images). -/
def wRGB : Image := { size := (1, 1), mode := .RGB, px := fun _ _ => (0, 0, 0) }

/-! ### The claims -/

/-- C1: for every pair of compatible images (equal size, equal mode, non-zero
area), `image_diff_percent a b` equals `(image_diff a b / image_diff black white)
* 100`, where `black` and `white` are all-black and all-white images of `a`'s
size constructed in RGB mode regardless of the inputs' mode. -/
theorem C1_percent_is_normalized_score (a b : Image) (d w : Nat)
    (hs : a.size = b.size) (hm : a.mode = b.mode)
    (harea : a.size.1 * a.size.2 ≠ 0)
    (hd : image_diff a b = .ok d)
    (hw : image_diff (newRGB a.size (0, 0, 0)) (newRGB a.size (255, 255, 255))
      = .ok w) :
    image_diff_percent a b = .ok ((d : ℚ) / (w : ℚ) * 100) := by
  have hd' : total_histogram_diff (diffGray a b) = d := by
    rw [image_diff_ok a b hs hm] at hd
    exact Except.ok.inj hd
  have hw' : 255 * (a.size.1 * a.size.2) = w := by
    rw [image_diff_refs a.size] at hw
    exact Except.ok.inj hw
  rw [image_diff_percent_eq a b hs hm harea, hd', hw']

set_option maxRecDepth 10000 in
theorem C1_percent_is_normalized_score_witness :
    image_diff_percent wA wB = .ok (((7 : ℕ) : ℚ) / ((255 : ℕ) : ℚ) * 100) :=
  C1_percent_is_normalized_score wA wB 7 255 rfl rfl (by decide)
    (by rfl) (by rfl)

/-- C2: `pixel_diff` fails with `ImageCompareException` on a size mismatch
(message containing both size tuples) and, sizes being equal, on a mode
mismatch (message containing both mode tags); on compatible inputs it
succeeds with the single-channel luminance difference image of the same
size (pixels are the luminance of the per-channel absolute difference, and
are valid single-channel values when the inputs are well formed).  The
embedding is pure, so neither input is mutated, by construction. -/
theorem C2_pixel_diff_contract (a b : Image) :
    (a.size ≠ b.size →
      pixel_diff a b = .error (.imageCompare (sizeMsg a.size b.size)) ∧
      (∃ s t, sizeMsg a.size b.size = s ++ toString a.size ++ t) ∧
      (∃ u v, sizeMsg a.size b.size = u ++ toString b.size ++ v)) ∧
    (a.size = b.size → a.mode ≠ b.mode →
      pixel_diff a b = .error (.imageCompare (modeMsg a.mode b.mode)) ∧
      (∃ s t, modeMsg a.mode b.mode = s ++ a.mode.str ++ t) ∧
      (∃ u v, modeMsg a.mode b.mode = u ++ b.mode.str ++ v)) ∧
    (a.size = b.size → a.mode = b.mode →
      pixel_diff a b = .ok (diffGray a b) ∧
      (diffGray a b).size = a.size ∧
      (∀ x y, (diffGray a b).px x y = lumDiff a.mode (a.px x y) (b.px x y)) ∧
      (a.WF → b.WF → (diffGray a b).WF)) := by
  refine ⟨fun hs => ⟨pixel_diff_size_err a b hs, sizeMsg_contains _ _⟩,
    fun hs hm => ⟨pixel_diff_mode_err a b hs hm, modeMsg_contains _ _⟩,
    fun hs hm => ⟨pixel_diff_ok a b hs hm, rfl, fun x y => rfl,
      fun hwa hwb => diffGray_WF a b hs hm hwa hwb⟩⟩

theorem C2_pixel_diff_contract_witness :
    pixel_diff wA w2 = .error (.imageCompare (sizeMsg wA.size w2.size)) ∧
    pixel_diff wA wRGB = .error (.imageCompare (modeMsg wA.mode wRGB.mode)) ∧
    pixel_diff wA wB = .ok (diffGray wA wB) :=
  ⟨((C2_pixel_diff_contract wA w2).1 (by decide)).1,
   ((C2_pixel_diff_contract wA wRGB).2.1 rfl (by decide)).1,
   ((C2_pixel_diff_contract wA wB).2.2 rfl rfl).1⟩

/-- C3: when the sizes match and the percentage is computable, `is_equal`
returns `true` exactly when `image_diff_percent a b ≤ tolerance`; the bound
is inclusive, so a percentage equal to the tolerance yields `true`. -/
theorem C3_is_equal_iff_tolerance (a b : Image) (tol p : ℚ)
    (hs : a.size = b.size) (hp : image_diff_percent a b = .ok p) :
    (is_equal a b tol = .ok true ↔ p ≤ tol) ∧
    (p = tol → is_equal a b tol = .ok true) := by
  have h1 : is_equal a b tol = .ok (decide (p ≤ tol)) := by
    simp [is_equal, hs, hp, Except.map]
  constructor
  · rw [h1]
    simp only [Except.ok.injEq, decide_eq_true_eq]
  · intro he
    rw [h1]
    simp [he]

set_option maxRecDepth 10000 in
theorem C3_is_equal_iff_tolerance_witness :
    is_equal wA wB (((7 : ℕ) : ℚ) / ((255 : ℕ) : ℚ) * 100) = .ok true :=
  (C3_is_equal_iff_tolerance wA wB (((7 : ℕ) : ℚ) / ((255 : ℕ) : ℚ) * 100)
    (((7 : ℕ) : ℚ) / ((255 : ℕ) : ℚ) * 100) rfl (by rfl)).2 rfl

/-- C4: on images of differing sizes `is_equal` returns `false` for every
tolerance and raises nothing — the deliberate short-circuit, distinct from
the strict validation in `pixel_diff`. -/
theorem C4_size_mismatch_short_circuit (a b : Image) (tol : ℚ)
    (hs : a.size ≠ b.size) : is_equal a b tol = .ok false := by
  simp [is_equal, hs]

theorem C4_size_mismatch_short_circuit_witness :
    is_equal wA w2 0 = .ok false :=
  C4_size_mismatch_short_circuit wA w2 0 (by decide)

/-- C5 (counterexample): on the concrete compatible zero-area pair — two
0×0 RGB images — `image_diff_percent` propagates the divide-by-zero fault
(`ZeroDivisionError`) and does not fail with the spec's dedicated
`DegenerateImageError` (modelled as `Err.degenerate`), so the claim as
stated is false on the code. -/
theorem C5_counterexample :
    image_diff_percent (newRGB (0, 0) (0, 0, 0)) (newRGB (0, 0) (0, 0, 0)) =
      .error .zeroDivision ∧
    image_diff_percent (newRGB (0, 0) (0, 0, 0)) (newRGB (0, 0) (0, 0, 0)) ≠
      .error .degenerate := by
  have h0 : image_diff_percent (newRGB (0, 0) (0, 0, 0))
      (newRGB (0, 0) (0, 0, 0)) = .error .zeroDivision :=
    image_diff_percent_zero_area _ _ rfl rfl rfl
  refine ⟨h0, ?_⟩
  rw [h0]
  simp

/-- C5 (amended): for every pair of compatible images of zero area,
`image_diff_percent` fails with the divide-by-zero fault (Python's
`ZeroDivisionError`), not with a dedicated `DegenerateImageError` — the
code has no such guard. -/
theorem C5_zero_area_zero_division (a b : Image) (hs : a.size = b.size)
    (hm : a.mode = b.mode) (hz : a.size.1 * a.size.2 = 0) :
    image_diff_percent a b = .error .zeroDivision :=
  image_diff_percent_zero_area a b hs hm hz

theorem C5_zero_area_zero_division_witness :
    image_diff_percent (newRGB (0, 3) (0, 0, 0)) (newRGB (0, 3) (0, 0, 0)) =
      .error .zeroDivision :=
  C5_zero_area_zero_division (newRGB (0, 3) (0, 0, 0))
    (newRGB (0, 3) (0, 0, 0)) rfl rfl rfl

/-- C6: `total_histogram_diff` is the sum over all 256 intensity levels of
`level × (number of pixels at that level)`, and `image_diff` is its
composition with `pixel_diff`: it propagates `pixel_diff`'s
`ImageCompareException` and on success scores the difference image. -/
theorem C6_score_is_weighted_histogram (a b : Image) (g : GrayImage) :
    total_histogram_diff g = (∑ i ∈ Finset.range 256, i * countAt g i) ∧
    (∀ e, pixel_diff a b = .error e → image_diff a b = .error e) ∧
    (∀ g', pixel_diff a b = .ok g' →
      image_diff a b = .ok (total_histogram_diff g')) := by
  refine ⟨total_histogram_diff_eq_sum g, ?_, ?_⟩
  · intro e he
    simp [image_diff, he]
  · intro g' hg
    simp [image_diff, hg]

theorem C6_score_is_weighted_histogram_witness :
    total_histogram_diff (diffGray wA wB) =
      (∑ i ∈ Finset.range 256, i * countAt (diffGray wA wB) i) ∧
    image_diff wA w2 = .error (.imageCompare (sizeMsg wA.size w2.size)) ∧
    image_diff wA wB = .ok (total_histogram_diff (diffGray wA wB)) :=
  ⟨(C6_score_is_weighted_histogram wA wB (diffGray wA wB)).1,
   (C6_score_is_weighted_histogram wA w2 (diffGray wA wB)).2.1
     (.imageCompare (sizeMsg wA.size w2.size)) rfl,
   (C6_score_is_weighted_histogram wA wB (diffGray wA wB)).2.2
     (diffGray wA wB) (pixel_diff_ok wA wB rfl rfl)⟩

/-- C7: for compatible, non-degenerate, well-formed images (all channel
values within 0–255), the difference percentage never exceeds 100. -/
theorem C7_percent_le_100 (a b : Image) (p : ℚ)
    (hwa : a.WF) (hwb : b.WF) (hs : a.size = b.size) (hm : a.mode = b.mode)
    (harea : a.size.1 * a.size.2 ≠ 0)
    (hp : image_diff_percent a b = .ok p) : p ≤ 100 := by
  rw [image_diff_percent_eq a b hs hm harea] at hp
  have hpe : (total_histogram_diff (diffGray a b) : ℚ)
      / ((255 * (a.size.1 * a.size.2) : ℕ) : ℚ) * 100 = p :=
    Except.ok.inj hp
  have hwf : (diffGray a b).WF := diffGray_WF a b hs hm hwa hwb
  have hD : total_histogram_diff (diffGray a b)
      ≤ 255 * (a.size.1 * a.size.2) := by
    rw [total_histogram_diff_eq_pixel_sum _ hwf]
    calc ∑ q ∈ grid (diffGray a b), (diffGray a b).px q.1 q.2
        ≤ ∑ _q ∈ grid (diffGray a b), 255 := by
          refine Finset.sum_le_sum (fun q hq => ?_)
          rw [grid, Finset.mem_product] at hq
          exact hwf q.1 q.2 (Finset.mem_range.mp hq.1) (Finset.mem_range.mp hq.2)
      _ = 255 * (a.size.1 * a.size.2) := by
          rw [Finset.sum_const, smul_eq_mul]
          show (Finset.range a.size.1 ×ˢ Finset.range a.size.2).card * 255
            = 255 * (a.size.1 * a.size.2)
          rw [Finset.card_product, Finset.card_range, Finset.card_range,
            Nat.mul_comm]
  have hWpos : (0 : ℚ) < ((255 * (a.size.1 * a.size.2) : ℕ) : ℚ) := by
    exact_mod_cast Nat.pos_of_ne_zero (Nat.mul_ne_zero (by norm_num) harea)
  have hfrac : (total_histogram_diff (diffGray a b) : ℚ)
      / ((255 * (a.size.1 * a.size.2) : ℕ) : ℚ) ≤ 1 :=
    div_le_one_of_le₀ (by exact_mod_cast hD) (le_of_lt hWpos)
  rw [← hpe]
  calc (total_histogram_diff (diffGray a b) : ℚ)
      / ((255 * (a.size.1 * a.size.2) : ℕ) : ℚ) * 100
      ≤ 1 * 100 := mul_le_mul_of_nonneg_right hfrac (by norm_num)
    _ = 100 := by norm_num

lemma wA_WF : wA.WF := by
  intro x y _ _
  exact ⟨by norm_num [wA], fun h => Mode.noConfusion h⟩

lemma wB_WF : wB.WF := by
  intro x y _ _
  exact ⟨by norm_num [wB], fun h => Mode.noConfusion h⟩

set_option maxRecDepth 10000 in
theorem C7_percent_le_100_witness :
    ((7 : ℕ) : ℚ) / ((255 : ℕ) : ℚ) * 100 ≤ 100 :=
  C7_percent_le_100 wA wB (((7 : ℕ) : ℚ) / ((255 : ℕ) : ℚ) * 100)
    wA_WF wB_WF rfl rfl (by decide) (by rfl)

/-- C8: the difference percentage is symmetric on compatible, non-degenerate
pairs: `image_diff_percent a b = image_diff_percent b a`. -/
theorem C8_percent_symmetric (a b : Image) (hs : a.size = b.size)
    (hm : a.mode = b.mode) (harea : a.size.1 * a.size.2 ≠ 0) :
    image_diff_percent a b = image_diff_percent b a := by
  have harea' : b.size.1 * b.size.2 ≠ 0 := by
    rw [← hs]
    exact harea
  have hg : diffGray a b = diffGray b a := by
    unfold diffGray
    rw [hs, hm]
    congr 1
    funext x y
    exact lumDiff_comm _ _ _
  rw [image_diff_percent_eq a b hs hm harea,
    image_diff_percent_eq b a hs.symm hm.symm harea', hg, hs]

theorem C8_percent_symmetric_witness :
    image_diff_percent wA wB = image_diff_percent wB wA :=
  C8_percent_symmetric wA wB rfl rfl (by decide)

/-- C9 (counterexample): the claim fails on the code at concrete inputs in
both of its halves: the byte-stream variant `is_equal_bytes` opens both
images it decodes from the byte buffers but closes neither (the code has no
`close()` call on that path); and when `image_diff_percent` is given a
first path identifier that decodes and a second whose decode fails, the
exception escapes before the try/finally is entered and the engine-opened
first image is never closed. -/
theorem C9_counterexample :
    (is_equal_bytes_eff (fun _ => wA) [0] [1] 0).2.openedA = true ∧
    (is_equal_bytes_eff (fun _ => wA) [0] [1] 0).2.closedA = false ∧
    (is_equal_bytes_eff (fun _ => wA) [0] [1] 0).2.openedB = true ∧
    (is_equal_bytes_eff (fun _ => wA) [0] [1] 0).2.closedB = false ∧
    (image_diff_percent_src envLeak (.path "good") (.path "bad")).2.openedA
      = true ∧
    (image_diff_percent_src envLeak (.path "good") (.path "bad")).2.closedA
      = false :=
  ⟨rfl, rfl, rfl, rfl, rfl, rfl⟩

/-- C9 (amended): the byte-stream variant decodes two engine-owned images
and never releases either.  `image_diff_percent` never releases a
caller-supplied decoded image; when both arguments resolve (every path
argument decodes successfully), it closes exactly the images it opened
itself, on every exit path of the comparison, success and failure alike;
but when the second path argument fails to decode after the first path
argument was opened, the exception propagates from before the try/finally
and the first self-opened image is not closed. -/
theorem C9_ownership :
    (∀ (envB : List Nat → Image) (ba bb : List Nat) (tol : ℚ),
      (is_equal_bytes_eff envB ba bb tol).2 =
        { openedA := true, closedA := false,
          openedB := true, closedB := false }) ∧
    (∀ (env : String → Option Image) (sa sb : ImgSrc),
      (∀ i, sa = .inst i →
        (image_diff_percent_src env sa sb).2.openedA = false ∧
        (image_diff_percent_src env sa sb).2.closedA = false) ∧
      (∀ i, sb = .inst i →
        (image_diff_percent_src env sa sb).2.openedB = false ∧
        (image_diff_percent_src env sa sb).2.closedB = false) ∧
      (∀ ia ca ib cb, openSrc env sa = .ok (ia, ca) →
        openSrc env sb = .ok (ib, cb) →
        (image_diff_percent_src env sa sb).2 =
          { openedA := ca, closedA := ca, openedB := cb, closedB := cb }) ∧
      (∀ pa ia pb, sa = .path pa → env pa = some ia →
        sb = .path pb → env pb = none →
        (image_diff_percent_src env sa sb).2.openedA = true ∧
        (image_diff_percent_src env sa sb).2.closedA = false)) := by
  constructor
  · intro envB ba bb tol
    rfl
  · intro env sa sb
    refine ⟨?_, ?_, ?_, ?_⟩
    · rintro i rfl
      cases sb with
      | inst j => exact ⟨rfl, rfl⟩
      | path pb =>
        cases hb : env pb with
        | none => simp [image_diff_percent_src, openSrc, hb]
        | some jb => simp [image_diff_percent_src, openSrc, hb]
    · rintro i rfl
      cases sa with
      | inst ja => exact ⟨rfl, rfl⟩
      | path pa =>
        cases ha : env pa with
        | none => simp [image_diff_percent_src, openSrc, ha]
        | some ja => simp [image_diff_percent_src, openSrc, ha]
    · intro ia ca ib cb ha hb
      simp [image_diff_percent_src, ha, hb]
    · rintro pa ia pb rfl ha rfl hb
      simp [image_diff_percent_src, openSrc, ha, hb]

theorem C9_ownership_witness :
    (is_equal_bytes_eff (fun _ => wA) [2] [3] 0).2 =
      { openedA := true, closedA := false,
        openedB := true, closedB := false } ∧
    (image_diff_percent_src envLeak (.inst wB) (.path "good")).2.openedA
      = false ∧
    (image_diff_percent_src envLeak (.inst wB) (.path "good")).2.closedA
      = false ∧
    (image_diff_percent_src envLeak (.path "good") (.inst wB)).2 =
      { openedA := true, closedA := true,
        openedB := false, closedB := false } ∧
    (image_diff_percent_src envLeak (.path "good") (.path "bad")).2.openedA
      = true ∧
    (image_diff_percent_src envLeak (.path "good") (.path "bad")).2.closedA
      = false :=
  ⟨C9_ownership.1 (fun _ => wA) [2] [3] 0,
   ((C9_ownership.2 envLeak (.inst wB) (.path "good")).1 wB rfl).1,
   ((C9_ownership.2 envLeak (.inst wB) (.path "good")).1 wB rfl).2,
   (C9_ownership.2 envLeak (.path "good") (.inst wB)).2.2.1 wA true wB false
     (by rfl) rfl,
   ((C9_ownership.2 envLeak (.path "good") (.path "bad")).2.2.2 "good" wA
     "bad" rfl (by rfl) rfl (by rfl)).1,
   ((C9_ownership.2 envLeak (.path "good") (.path "bad")).2.2.2 "good" wA
     "bad" rfl (by rfl) rfl (by rfl)).2⟩

/-- C10: on images of equal size but differing modes, `is_equal` does not
return `false`: the size short-circuit does not fire, and the
`ImageCompareException` raised by `pixel_diff`'s mode validation propagates
out of `is_equal` (so in particular no boolean is returned at all). -/
theorem C10_mode_mismatch_raises (a b : Image) (tol : ℚ)
    (hs : a.size = b.size) (hm : a.mode ≠ b.mode) :
    is_equal a b tol = .error (.imageCompare (modeMsg a.mode b.mode)) ∧
    ∀ r : Bool, is_equal a b tol ≠ .ok r := by
  have hpe : image_diff_percent a b =
      .error (.imageCompare (modeMsg a.mode b.mode)) := by
    simp [image_diff_percent, image_diff, pixel_diff_mode_err a b hs hm]
  have h1 : is_equal a b tol =
      .error (.imageCompare (modeMsg a.mode b.mode)) := by
    simp [is_equal, hs, hpe, Except.map]
  refine ⟨h1, fun r => ?_⟩
  rw [h1]
  simp

theorem C10_mode_mismatch_raises_witness :
    is_equal wA wRGB 0 = .error (.imageCompare (modeMsg wA.mode wRGB.mode)) ∧
    is_equal wA wRGB 0 ≠ .ok false :=
  ⟨(C10_mode_mismatch_raises wA wRGB 0 rfl (by decide)).1,
   (C10_mode_mismatch_raises wA wRGB 0 rfl (by decide)).2 false⟩
